import Mathlib

/-
Verification of the Five-Dot Lines game engine (src/src/App.js).

The JavaScript source is shallowly embedded: the board is a list of rows of
cell values (0 = empty, 1 = occupied) exactly like the `Array` of `Array`s in
the source; in-place mutation (`board[y][x] = v`) becomes a functional update
that is threaded explicitly, so the temporary place-then-undo probe of
`linesCreatedIfPlaced` is visible as the `board` field of its result; the
bounded `while` walks become fuel-indexed recursion with enough fuel that the
`inside` guard always stops the walk first.
-/

namespace FiveDot

/-- Board side length (`const N = 21`). -/
def N : Nat := 21

/-- Board center (`const CENTER = Math.floor(N / 2)`). -/
def CENTER : Nat := N / 2

/-- A board: list of rows, each a list of cell values (0 empty, 1 occupied). -/
abbrev Board := List (List Nat)

/-- `makeEmptyBoard`: N x N grid of zeros. -/
def makeEmptyBoard : Board := List.replicate N (List.replicate N 0)

/-- Read `board[y][x]`. Out-of-range reads yield the default 0; every read in
the embedded code is guarded by `inside`, so the default is never consulted on
in-range coordinates of a well-formed board. -/
def get2 (b : Board) (x y : Int) : Nat := (b.getD y.toNat []).getD x.toNat 0

/-- Write `board[y][x] = v` as a functional update; out-of-range writes are
no-ops (the source only writes inside the grid). -/
def set2 (b : Board) (y x : Int) (v : Nat) : Board :=
  b.set y.toNat ((b.getD y.toNat []).set x.toNat v)

/-- `inside(x, y)`: the coordinate lies in `[0,N) x [0,N)`. -/
def inside (x y : Int) : Bool :=
  decide (0 ≤ x ∧ x < (N : Int) ∧ 0 ≤ y ∧ y < (N : Int))

/-- Seed line length (`const length = 8` in `seedInitialCross`). -/
def seedLength : Nat := 8

/-- `halfLeft = Math.floor((length - 1) / 2)`. -/
def halfLeft : Nat := (seedLength - 1) / 2

/-- `halfRight = length - 1 - halfLeft`. -/
def halfRight : Nat := seedLength - 1 - halfLeft

/-- The loop range `dx = -halfLeft .. halfRight` of `seedInitialCross`. -/
def seedRange : List Int :=
  (List.range seedLength).map fun i => (i : Int) - (halfLeft : Int)

/-- `seedInitialCross`: fill two adjacent center rows and two adjacent center
columns with 8 dots each, skipping out-of-board coordinates. -/
def seedInitialCross (board : Board) : Board :=
  let b1 := [(CENTER : Int), (CENTER : Int) + 1].foldl
    (fun b ry => seedRange.foldl
      (fun b dx =>
        let x := (CENTER : Int) + dx
        if inside x ry then set2 b ry x 1 else b) b) board
  [(CENTER : Int), (CENTER : Int) + 1].foldl
    (fun b cx => seedRange.foldl
      (fun b dy =>
        let y := (CENTER : Int) + dy
        if inside cx y then set2 b y cx 1 else b) b) b1

/-- The four axis direction vectors `DIRS`. -/
def DIRS : List (Int × Int) := [(1, 0), (0, 1), (1, 1), (1, -1)]

/-- A scored window record `{x1, y1, x2, y2, axisId, cells}`. -/
structure Seg where
  x1 : Int
  y1 : Int
  x2 : Int
  y2 : Int
  axisId : Nat
  cells : List (Int × Int)
deriving DecidableEq, Inhabited

/-- `overlapsExisting(existingSegments, cand)`: some already scored window on
the same axis shares a cell with the candidate. -/
def overlapsExisting (existingSegments : List Seg) (cand : Seg) : Bool :=
  existingSegments.any fun ex =>
    (ex.axisId == cand.axisId) &&
      cand.cells.any fun c => ex.cells.any fun ec => decide (ec = c)

/-- The string key `"axisId:x1,y1->x2,y2"` of `pushIfUnique`, as the tuple of
the fields it prints (numbers print injectively, so key equality is equality
of this tuple). -/
def segKey (s : Seg) : Nat × Int × Int × Int × Int :=
  (s.axisId, s.x1, s.y1, s.x2, s.y2)

/-- Key comparison used by the dedup in `pushIfUnique`. -/
def sameKey (s cand : Seg) : Bool := decide (segKey s = segKey cand)

/-- `pushIfUnique(cand)`: drop the candidate if it overlaps a same-axis scored
window or duplicates a window already collected this move; else append it. -/
def pushIfUnique (existingSegments : List Seg) (segs : List Seg) (cand : Seg) :
    List Seg :=
  if overlapsExisting existingSegments cand then segs
  else if segs.any fun s => sameKey s cand then segs
  else segs ++ [cand]

/-- One step of the contiguous-run `while` loops of `linesCreatedIfPlaced`,
with fuel. Each direction has a nonzero unit component, so the `inside` guard
fails after at most `N` steps; fuel `N + 1` therefore computes the exact loop
count. -/
def runLenAux (b : Board) (dx dy : Int) : Nat → Int → Int → Nat
  | 0, _, _ => 0
  | fuel + 1, cx, cy =>
    if inside cx cy && (get2 b cx cy == 1) then
      runLenAux b dx dy fuel (cx + dx) (cy + dy) + 1
    else 0

/-- Length of the contiguous occupied run starting at `(cx, cy)` walking in
direction `(dx, dy)`. -/
def runLen (b : Board) (cx cy dx dy : Int) : Nat :=
  runLenAux b dx dy (N + 1) cx cy

/-- Build one candidate window: endpoints `takeL` steps backwards and `takeR`
steps forwards from `(x, y)`, with its five cells. -/
def mkWindow (x y dx dy : Int) (takeL takeR : Nat) (axisId : Nat) : Seg :=
  let x1 := x - dx * (takeL : Int)
  let y1 := y - dy * (takeL : Int)
  let x2 := x + dx * (takeR : Int)
  let y2 := y + dy * (takeR : Int)
  { x1 := x1, y1 := y1, x2 := x2, y2 := y2, axisId := axisId,
    cells := (List.range 5).map fun k => (x1 + dx * (k : Int), y1 + dy * (k : Int)) }

/-- The per-axis body of the `DIRS.forEach` in `linesCreatedIfPlaced`: count
the run on each side of `(x, y)`, and when the total reaches 5 push the
left-heavy and right-heavy candidate windows. -/
def axisScan (b : Board) (existingSegments : List Seg) (x y : Int)
    (d : Int × Int) (axisId : Nat) (segs : List Seg) : List Seg :=
  let dx := d.1
  let dy := d.2
  let l := runLen b (x - dx) (y - dy) (-dx) (-dy)
  let r := runLen b (x + dx) (y + dy) dx dy
  let total := l + 1 + r
  if 5 ≤ total then
    let takeLeftA := min 4 l
    let takeRightA := 4 - takeLeftA
    let segs1 :=
      if takeRightA ≤ r then
        pushIfUnique existingSegments segs (mkWindow x y dx dy takeLeftA takeRightA axisId)
      else segs
    let takeRightB := min 4 r
    let takeLeftB := 4 - takeRightB
    if takeLeftB ≤ l then
      pushIfUnique existingSegments segs1 (mkWindow x y dx dy takeLeftB takeRightB axisId)
    else segs1
  else segs

/-- Result of `linesCreatedIfPlaced`: the board after the call (the source
mutates its argument and undoes the mutation) together with `{count, segs}`. -/
structure EvalOutcome where
  board : Board
  count : Nat
  segs : List Seg
deriving DecidableEq

/-- `linesCreatedIfPlaced(board, x, y, existingSegments)`: windows a placement
at `(x, y)` would complete, up to two per axis, with the same-axis overlap
rule applied against the ledger. -/
def linesCreatedIfPlaced (board : Board) (x y : Int)
    (existingSegments : List Seg) : EvalOutcome :=
  if ¬(inside x y = true) ∨ get2 board x y ≠ 0 then ⟨board, 0, []⟩
  else
    let b1 := set2 board y x 1
    let segs := DIRS.enum.foldl
      (fun segs p => axisScan b1 existingSegments x y p.2 p.1 segs) []
    let b2 := set2 b1 y x 0
    ⟨b2, segs.length, segs⟩

/-- `findAnyLegalMove(board, existingSegments)`: scan the grid for an empty
cell whose placement would score. -/
def findAnyLegalMove (board : Board) (existingSegments : List Seg) : Bool :=
  (List.range N).any fun (y : Nat) => (List.range N).any fun (x : Nat) =>
    (get2 board (x : Int) (y : Int) == 0) &&
      decide (0 < (linesCreatedIfPlaced board (x : Int) (y : Int) existingSegments).count)

/-- `getAllLegalMoves()`: exhaustive list of `{x, y, count}` for every empty
cell whose placement would score. -/
def getAllLegalMoves (board : Board) (existingSegments : List Seg) :
    List (Int × Int × Nat) :=
  (List.range N).foldl
    (fun (out : List (Int × Int × Nat)) (yy : Nat) => (List.range N).foldl
      (fun (out : List (Int × Int × Nat)) (xx : Nat) =>
        if get2 board (xx : Int) (yy : Int) ≠ 0 then out
        else
          let r := linesCreatedIfPlaced board (xx : Int) (yy : Int) existingSegments
          if 0 < r.count then out ++ [((xx : Int), (yy : Int), r.count)] else out)
      out)
    []

/-- The game-session state handled by the React component: board, score, move
counter, game-over flag, and the ledger of scored windows. -/
structure GameState where
  board : Board
  score : Nat
  moves : Nat
  gameOver : Bool
  segments : List Seg
deriving DecidableEq

/-- `handleCellClick(x, y)`: reject when the game is over, the cell is not
empty, or the placement scores nothing; otherwise commit the dot, the windows,
the score and the move counter. -/
def handleCellClick (st : GameState) (x y : Int) : GameState :=
  if st.gameOver || !(get2 st.board x y == 0) then st
  else
    let created := linesCreatedIfPlaced st.board x y st.segments
    if created.count ≤ 0 then { st with board := created.board }
    else
      { board := set2 created.board y x 1
        score := st.score + created.count
        moves := st.moves + 1
        gameOver := st.gameOver
        segments := st.segments ++ created.segs }

/-- The `useEffect` watching `legalExists`: set `gameOver` when no legal move
remains. -/
def applyTerminationCheck (st : GameState) : GameState :=
  if findAnyLegalMove st.board st.segments then st else { st with gameOver := true }

/-- One user click followed by the re-render effect. -/
def stepClick (st : GameState) (p : Int × Int) : GameState :=
  applyTerminationCheck (handleCellClick st p.1 p.2)

/-- The initial session state: seeded board, empty ledger, after the first
render effect. -/
def initState : GameState :=
  applyTerminationCheck
    { board := seedInitialCross makeEmptyBoard, score := 0, moves := 0,
      gameOver := false, segments := [] }

/-! Concrete fixtures used by witnesses and counterexamples. -/

/-- Fully occupied board: no legal move anywhere. -/
def allOnesBoard : Board := List.replicate N (List.replicate N 1)

/-- Scenario A board: cells (6,8)-(9,8) occupied. -/
def boardA : Board := (List.range N).map fun y => (List.range N).map fun x =>
  if y = 8 ∧ 6 ≤ x ∧ x ≤ 9 then 1 else 0

/-- Scenario A ledger: the horizontal window (5,8)-(9,8) already scored. -/
def ledgerA : List Seg :=
  [{ x1 := 5, y1 := 8, x2 := 9, y2 := 8, axisId := 0,
     cells := [(5, 8), (6, 8), (7, 8), (8, 8), (9, 8)] }]

/-- Scenario B board: cells (6,8)-(9,8) and (11,8)-(14,8) occupied, the gap at
(10,8) empty. -/
def boardB : Board := (List.range N).map fun y => (List.range N).map fun x =>
  if y = 8 ∧ ((6 ≤ x ∧ x ≤ 9) ∨ (11 ≤ x ∧ x ≤ 14)) then 1 else 0

/-- Board with exactly two occupied cells on each side of the empty cell
(10,8): a 5-long symmetric run once (10,8) is filled. -/
def boardTwoTwo : Board := (List.range N).map fun y => (List.range N).map fun x =>
  if y = 8 ∧ (x = 8 ∨ x = 9 ∨ x = 11 ∨ x = 12) then 1 else 0

/-- Board with a 4-run (5,8)-(8,8); placing at (9,8) completes (5,8)-(9,8). -/
def boardFourRun : Board := (List.range N).map fun y => (List.range N).map fun x =>
  if y = 8 ∧ 5 ≤ x ∧ x ≤ 8 then 1 else 0

/-- A scored horizontal window far away at (14,8)-(18,8). -/
def segFar : Seg :=
  { x1 := 14, y1 := 8, x2 := 18, y2 := 8, axisId := 0,
    cells := [(14, 8), (15, 8), (16, 8), (17, 8), (18, 8)] }

/-- Ledger holding only `segFar`. -/
def ledgerFar : List Seg := [segFar]

/-- A concrete four-click game from the seeded initial state. Every click is
a committed scoring move; the last one is a double horizontal score. -/
def game4 : GameState :=
  [((14 : Int), (12 : Int)), (9, 12), (12, 12), (13, 12)].foldl stepClick initState

/-- The coordinate (a, c) is one of the eight occupied cells of a 9-long run
centred at (x, y) along direction (dx, dy) (four on each side, centre
excluded). -/
def runCell (x y dx dy a c : Int) : Prop :=
  ∃ k ∈ [(-4 : Int), -3, -2, -1, 1, 2, 3, 4], a = x + k * dx ∧ c = y + k * dy

instance (x y dx dy a c : Int) : Decidable (runCell x y dx dy a c) :=
  inferInstanceAs (Decidable (∃ k ∈ [(-4 : Int), -3, -2, -1, 1, 2, 3, 4],
    a = x + k * dx ∧ c = y + k * dy))

/-- A well-formed board: N rows of N cells. -/
def WFBoard (b : Board) : Prop := b.length = N ∧ ∀ row ∈ b, row.length = N

instance (b : Board) : Decidable (WFBoard b) :=
  inferInstanceAs (Decidable (b.length = N ∧ ∀ row ∈ b, row.length = N))

end FiveDot

/-! # Theorems -/

namespace FiveDot

/-- Setting an index of a list to the value `getD` reads there changes
nothing. -/
theorem list_set_getD_self {α : Type} (l : List α) (i : Nat) (d : α)
    (h : l.getD i d = d) : l.set i d = l := by
  induction l generalizing i with
  | nil => simp
  | cons a t ih =>
    cases i with
    | zero => simp at h; simp [h]
    | succ n =>
      simp at h ⊢
      exact ih n (by simpa using h)

/-- Writing back the value read with `getD` changes nothing. -/
theorem list_set_getD {α : Type} (l : List α) (i : Nat) (d : α) :
    l.set i (l.getD i d) = l := by
  induction l generalizing i with
  | nil => simp
  | cons a t ih =>
    cases i with
    | zero => simp
    | succ n => simpa using ih n

/-- The place-then-undo probe restores the board: setting a cell that reads 0
to 1 and back to 0 is the identity. -/
theorem set2_restore (b : Board) (x y : Int) (h : get2 b x y = 0) :
    set2 (set2 b y x 1) y x 0 = b := by
  unfold set2 get2 at *
  by_cases hy : y.toNat < b.length
  · have h1 : (b.set y.toNat ((b.getD y.toNat []).set x.toNat 1)).getD y.toNat []
        = (b.getD y.toNat []).set x.toNat 1 := by
      simp [List.getD_eq_getElem?_getD, List.getElem?_set_self hy]
    rw [h1, List.set_set, List.set_set, list_set_getD_self _ _ _ h]
    exact list_set_getD b y.toNat []
  · have hlen : b.length ≤ y.toNat := Nat.le_of_not_lt hy
    have hset : ∀ r : List Nat, b.set y.toNat r = b := fun r =>
      List.set_eq_of_length_le hlen
    rw [hset, hset]

/-- `linesCreatedIfPlaced` hands the board back unchanged: its transient
place-measure-undo probe is invisible afterwards. -/
theorem linesCreated_board_eq (b : Board) (x y : Int) (segs : List Seg) :
    (linesCreatedIfPlaced b x y segs).board = b := by
  unfold linesCreatedIfPlaced
  split
  · rfl
  · rename_i h
    push_neg at h
    exact set2_restore b x y h.2

/-- C5. Evaluation is observably pure: the board coming out of
`linesCreatedIfPlaced` equals the board going in (the ledger is read-only by
construction), and a second call on the post-call board with the same
arguments returns the identical result. -/
theorem C5_eval_pure (board : Board) (x y : Int) (segs : List Seg) :
    (linesCreatedIfPlaced board x y segs).board = board ∧
    linesCreatedIfPlaced ((linesCreatedIfPlaced board x y segs).board) x y segs
      = linesCreatedIfPlaced board x y segs := by
  have hb := linesCreated_board_eq board x y segs
  exact ⟨hb, by rw [hb]⟩

/-- An out-of-range evaluation takes the early-return branch. -/
theorem linesCreated_out_of_bounds (b : Board) (x y : Int) (segs : List Seg)
    (h : inside x y = false) :
    linesCreatedIfPlaced b x y segs = ⟨b, 0, []⟩ := by
  unfold linesCreatedIfPlaced
  rw [if_pos]
  exact Or.inl (by simp [h])

/-- C10. Out-of-bounds evaluation is total and benign: outside the grid the
result is count 0, no windows, and the untouched input board. -/
theorem C10_out_of_bounds_benign (b : Board) (x y : Int) (segs : List Seg)
    (h : inside x y = false) :
    linesCreatedIfPlaced b x y segs = ⟨b, 0, []⟩ :=
  linesCreated_out_of_bounds b x y segs h

/-- Witness for C10 at the concrete out-of-range coordinate (21, 0). -/
theorem C10_witness :
    inside 21 0 = false ∧
    linesCreatedIfPlaced makeEmptyBoard 21 0 [] = ⟨makeEmptyBoard, 0, []⟩ :=
  ⟨by decide, C10_out_of_bounds_benign makeEmptyBoard 21 0 [] (by decide)⟩

/-- A click rejected for any of the three reasons (terminal state, occupied
cell, zero-scoring placement) leaves the session state unchanged. -/
theorem handleCellClick_noop (st : GameState) (x y : Int)
    (h : st.gameOver = true ∨ get2 st.board x y ≠ 0 ∨
      (linesCreatedIfPlaced st.board x y st.segments).count = 0) :
    handleCellClick st x y = st := by
  unfold handleCellClick
  split
  · rfl
  · rename_i hcond
    simp only [Bool.or_eq_true, Bool.not_eq_true', beq_eq_false_iff_ne, ne_eq] at hcond
    push_neg at hcond
    have hcount : (linesCreatedIfPlaced st.board x y st.segments).count = 0 := by
      rcases h with h | h | h
      · exact absurd h hcond.1
      · exact absurd hcond.2 h
      · exact h
    simp only [hcount, Nat.le_refl, if_pos, linesCreated_board_eq]

/-- C6. Rejected moves change nothing: when the game is over, or the clicked
cell is occupied, or the evaluation scores zero, `handleCellClick` returns the
state unchanged (board, ledger, score and move counter included). -/
theorem C6_rejected_moves_noop (st : GameState) (x y : Int)
    (h : st.gameOver = true ∨ get2 st.board x y ≠ 0 ∨
      (linesCreatedIfPlaced st.board x y st.segments).count = 0) :
    handleCellClick st x y = st :=
  handleCellClick_noop st x y h

/-- Witness for C6: clicking the occupied centre cell of the seeded starting
position leaves the session state unchanged. -/
theorem C6_witness :
    get2 (seedInitialCross makeEmptyBoard) 10 10 ≠ 0 ∧
    handleCellClick
      { board := seedInitialCross makeEmptyBoard, score := 0, moves := 0,
        gameOver := false, segments := [] } 10 10 =
      { board := seedInitialCross makeEmptyBoard, score := 0, moves := 0,
        gameOver := false, segments := [] } :=
  ⟨by decide,
    C6_rejected_moves_noop
      { board := seedInitialCross makeEmptyBoard, score := 0, moves := 0,
        gameOver := false, segments := [] } 10 10
      (Or.inr (Or.inl (by decide)))⟩

/-- C4. Same-axis overlap blocking, Scenario A: with (6,8)-(9,8) occupied and
the horizontal window (5,8)-(9,8) in the ledger, placing at (10,8) scores
nothing, although with an empty ledger the same placement would score the
geometric five-in-a-row (6,8)-(10,8). -/
theorem C4_overlap_blocks :
    (linesCreatedIfPlaced boardA 10 8 ledgerA).count = 0 ∧
    (linesCreatedIfPlaced boardA 10 8 ledgerA).segs = [] ∧
    (linesCreatedIfPlaced boardA 10 8 []).count = 1 := by decide

/-- C7. Seeding correctness: the seeded board occupies exactly the two centre
rows y = 10, 11 for x = 7..14 and the two centre columns x = 10, 11 for
y = 7..14 (CENTER = 10, left extent 3, right extent 4), and nothing else. -/
theorem C7_seed_exact :
    ∀ x : Nat, x < N → ∀ y : Nat, y < N →
      get2 (seedInitialCross makeEmptyBoard) (x : Int) (y : Int) =
        if ((y = CENTER ∨ y = CENTER + 1) ∧ CENTER - 3 ≤ x ∧ x ≤ CENTER + 4) ∨
            ((x = CENTER ∨ x = CENTER + 1) ∧ CENTER - 3 ≤ y ∧ y ≤ CENTER + 4)
        then 1 else 0 := by
  have hEq : seedInitialCross makeEmptyBoard =
      (List.range N).map (fun y => (List.range N).map fun x =>
        if ((y = CENTER ∨ y = CENTER + 1) ∧ CENTER - 3 ≤ x ∧ x ≤ CENTER + 4) ∨
            ((x = CENTER ∨ x = CENTER + 1) ∧ CENTER - 3 ≤ y ∧ y ≤ CENTER + 4)
        then 1 else 0) := by decide
  rw [hEq]
  decide

/-- A member of `pushIfUnique existing segs cand` is an old member of `segs`
or is `cand` itself, in which case it passed the ledger-overlap check. -/
theorem mem_pushIfUnique {ex segs : List Seg} {c s : Seg}
    (h : s ∈ pushIfUnique ex segs c) :
    s ∈ segs ∨ (s = c ∧ overlapsExisting ex c = false) := by
  simp only [pushIfUnique] at h
  split at h
  · exact Or.inl h
  · rename_i ho
    split at h
    · exact Or.inl h
    · rcases List.mem_append.mp h with h | h
      · exact Or.inl h
      · simp only [List.mem_singleton] at h
        exact Or.inr ⟨h, by simpa using ho⟩

/-- A member of `axisScan` output is an old member or passed the
ledger-overlap check. -/
theorem mem_axisScan {b : Board} {ex : List Seg} {x y : Int} {d : Int × Int}
    {ai : Nat} {segs : List Seg} {s : Seg}
    (h : s ∈ axisScan b ex x y d ai segs) :
    s ∈ segs ∨ overlapsExisting ex s = false := by
  simp only [axisScan] at h
  split at h
  · split at h
    · rcases mem_pushIfUnique h with h | ⟨rfl, hov⟩
      · split at h
        · rcases mem_pushIfUnique h with h | ⟨rfl, hov⟩
          · exact Or.inl h
          · exact Or.inr hov
        · exact Or.inl h
      · exact Or.inr hov
    · split at h
      · rcases mem_pushIfUnique h with h | ⟨rfl, hov⟩
        · exact Or.inl h
        · exact Or.inr hov
      · exact Or.inl h
  · exact Or.inl h

/-- Every window returned by `linesCreatedIfPlaced` passed the same-axis
overlap check against the ledger it was evaluated with. -/
theorem mem_linesCreated_overlap_false {b : Board} {x y : Int}
    {ledger : List Seg} {s : Seg}
    (hs : s ∈ (linesCreatedIfPlaced b x y ledger).segs) :
    overlapsExisting ledger s = false := by
  simp only [linesCreatedIfPlaced] at hs
  split at hs
  · simp at hs
  · have hDIRS : DIRS.enum = [(0, ((1 : Int), (0 : Int))), (1, (0, 1)), (2, (1, 1)), (3, (1, -1))] := rfl
    simp only [hDIRS, List.foldl_cons, List.foldl_nil] at hs
    rcases mem_axisScan hs with hs | hov
    · rcases mem_axisScan hs with hs | hov
      · rcases mem_axisScan hs with hs | hov
        · rcases mem_axisScan hs with hs | hov
          · simp at hs
          · exact hov
        · exact hov
      · exact hov
    · exact hov

/-- C1 (amended). Every window accepted by an evaluation is cell-disjoint
from every same-axis window already in the ledger that evaluation was given;
so windows committed by different moves never share a cell on a common axis.
(The two windows committed by a single double-scoring move are not subject to
this check and share the placed cell.) -/
theorem C1_ledger_disjoint_amended (b : Board) (x y : Int) (ledger : List Seg)
    (s : Seg) (hs : s ∈ (linesCreatedIfPlaced b x y ledger).segs)
    (e : Seg) (he : e ∈ ledger) (hax : e.axisId = s.axisId) :
    ∀ c ∈ s.cells, c ∉ e.cells := by
  intro c hc hce
  have hov := mem_linesCreated_overlap_false hs
  simp only [overlapsExisting, List.any_eq_false] at hov
  have := hov e he
  simp only [hax, beq_self_eq_true, Bool.true_and, List.any_eq_true,
    decide_eq_true_eq, not_exists, not_and] at this
  exact absurd rfl (this c hc c hce)

/-- Witness for the amended C1: completing (5,8)-(9,8) by placing at (9,8)
while the ledger holds the far-away same-axis window (14,8)-(18,8): the
accepted window shares no cell with it; in particular (14,8) of the ledger
window is not among its cells. -/
theorem C1_ledger_disjoint_amended_witness :
    mkWindow 9 8 1 0 4 0 0 ∈ (linesCreatedIfPlaced boardFourRun 9 8 ledgerFar).segs ∧
    segFar ∈ ledgerFar ∧
    segFar.axisId = (mkWindow 9 8 1 0 4 0 0).axisId ∧
    ((9 : Int), (8 : Int)) ∈ (mkWindow 9 8 1 0 4 0 0).cells ∧
    ((9 : Int), (8 : Int)) ∉ segFar.cells :=
  ⟨by decide, by decide, by decide, by decide,
    C1_ledger_disjoint_amended boardFourRun 9 8 ledgerFar
      (mkWindow 9 8 1 0 4 0 0) (by decide) segFar
      (by decide) (by decide) (9, 8) (by decide)⟩

/-- Counterexample to C1 as stated: after the four committed moves of `game4`
(a legal game from the seeded start), the ledger holds two distinct
horizontal windows, (9,12)-(13,12) and (10,12)-(14,12), committed by the same
double-scoring move, and they share the cell (10,12). -/
theorem C1_counterexample :
    (game4.segments.getD 3 default).axisId = (game4.segments.getD 4 default).axisId ∧
    game4.segments.getD 3 default ≠ game4.segments.getD 4 default ∧
    ((10 : Int), (12 : Int)) ∈ (game4.segments.getD 3 default).cells ∧
    ((10 : Int), (12 : Int)) ∈ (game4.segments.getD 4 default).cells := by
  have h : game4.segments =
      [{ x1 := 10, y1 := 8, x2 := 14, y2 := 12, axisId := 2,
         cells := [(10, 8), (11, 9), (12, 10), (13, 11), (14, 12)] },
       { x1 := 7, y1 := 10, x2 := 11, y2 := 14, axisId := 2,
         cells := [(7, 10), (8, 11), (9, 12), (10, 13), (11, 14)] },
       { x1 := 10, y1 := 14, x2 := 14, y2 := 10, axisId := 3,
         cells := [(10, 14), (11, 13), (12, 12), (13, 11), (14, 10)] },
       { x1 := 9, y1 := 12, x2 := 13, y2 := 12, axisId := 0,
         cells := [(9, 12), (10, 12), (11, 12), (12, 12), (13, 12)] },
       { x1 := 10, y1 := 12, x2 := 14, y2 := 12, axisId := 0,
         cells := [(10, 12), (11, 12), (12, 12), (13, 12), (14, 12)] }] := by
    decide
  rw [h]
  decide

/-- Pushing the same candidate twice is the same as pushing it once: the
second push is dropped by the overlap check or by the key dedup. -/
theorem pushIfUnique_self_idem (ex segs : List Seg) (c : Seg) :
    pushIfUnique ex (pushIfUnique ex segs c) c = pushIfUnique ex segs c := by
  by_cases ho : overlapsExisting ex c = true
  · unfold pushIfUnique
    simp [ho]
  · rw [Bool.not_eq_true] at ho
    by_cases hd : (segs.any fun s => sameKey s c) = true
    · have h1 : pushIfUnique ex segs c = segs := by
        unfold pushIfUnique
        rw [if_neg (by rw [ho]; exact Bool.false_ne_true), if_pos hd]
      rw [h1, h1]
    · rw [Bool.not_eq_true] at hd
      have h1 : pushIfUnique ex segs c = segs ++ [c] := by
        unfold pushIfUnique
        rw [if_neg (by rw [ho]; exact Bool.false_ne_true),
          if_neg (by rw [hd]; exact Bool.false_ne_true)]
      have hkey : ((segs ++ [c]).any fun s => sameKey s c) = true := by
        rw [List.any_append]
        simp [sameKey]
      rw [h1]
      unfold pushIfUnique
      rw [if_neg (by rw [ho]; exact Bool.false_ne_true), if_pos hkey]

/-- C3 (amended). When the two side counts are equal and the total is exactly
five (L = R = 2), the left-heavy and the right-heavy windows are the same
window, and the axis contributes it once: the whole axis evaluation is a
single `pushIfUnique` of that window. -/
theorem C3_equal_sides_total_five_dedup (b : Board) (ex : List Seg)
    (x y : Int) (d : Int × Int) (ai : Nat) (segs : List Seg)
    (hl : runLen b (x - d.1) (y - d.2) (-d.1) (-d.2) = 2)
    (hr : runLen b (x + d.1) (y + d.2) d.1 d.2 = 2) :
    mkWindow x y d.1 d.2 (min 4 2) (4 - min 4 2) ai =
      mkWindow x y d.1 d.2 (4 - min 4 2) (min 4 2) ai ∧
    axisScan b ex x y d ai segs =
      pushIfUnique ex segs (mkWindow x y d.1 d.2 2 2 ai) := by
  constructor
  · norm_num
  · simp only [axisScan]
    rw [hl, hr]
    norm_num
    exact pushIfUnique_self_idem ex segs (mkWindow x y d.1 d.2 2 2 ai)

/-- Witness for the amended C3 on the concrete symmetric 5-run: two occupied
cells each side of (10,8); the axis evaluation yields the single window
(8,8)-(12,8). -/
theorem C3_equal_sides_witness :
    runLen (set2 boardTwoTwo 8 10 1) (10 - (1 : Int)) (8 - (0 : Int)) (-1) (-0) = 2 ∧
    runLen (set2 boardTwoTwo 8 10 1) (10 + (1 : Int)) (8 + (0 : Int)) 1 0 = 2 ∧
    axisScan (set2 boardTwoTwo 8 10 1) [] 10 8 (1, 0) 0 [] =
      pushIfUnique [] [] (mkWindow 10 8 1 0 2 2 0) :=
  ⟨by decide, by decide,
    (C3_equal_sides_total_five_dedup (set2 boardTwoTwo 8 10 1) [] 10 8 (1, 0) 0 []
      (by decide) (by decide)).2⟩

/-- Counterexample to C3 as stated: on the Scenario B board the horizontal
side counts are equal (L = R = 4, total 9 ≥ 5), yet after deduplication the
axis produces two windows, not one. -/
theorem C3_counterexample :
    runLen (set2 boardB 8 10 1) (10 - (1 : Int)) (8 - (0 : Int)) (-1) (-0) = 4 ∧
    runLen (set2 boardB 8 10 1) (10 + (1 : Int)) (8 + (0 : Int)) 1 0 = 4 ∧
    ((linesCreatedIfPlaced boardB 10 8 []).segs.filter
        fun s => s.axisId == 0).length = 2 := by
  refine ⟨by decide, by decide, by decide⟩

/-- Witness for C7 at the concrete in-range cell (10, 7): occupied because it
lies on the vertical arm. -/
theorem C7_witness :
    (10 : Nat) < N ∧ (7 : Nat) < N ∧
    get2 (seedInitialCross makeEmptyBoard) ((10 : Nat) : Int) ((7 : Nat) : Int) =
      if (((7 : Nat) = CENTER ∨ (7 : Nat) = CENTER + 1) ∧
            CENTER - 3 ≤ (10 : Nat) ∧ (10 : Nat) ≤ CENTER + 4) ∨
          (((10 : Nat) = CENTER ∨ (10 : Nat) = CENTER + 1) ∧
            CENTER - 3 ≤ (7 : Nat) ∧ (7 : Nat) ≤ CENTER + 4)
      then 1 else 0 :=
  ⟨by decide, by decide, C7_seed_exact 10 (by decide) 7 (by decide)⟩

/-- Unfolding one step of the fuelled while-loop. -/
theorem runLenAux_succ (b : Board) (dx dy : Int) (fuel : Nat) (cx cy : Int) :
    runLenAux b dx dy (fuel + 1) cx cy =
      if inside cx cy && (get2 b cx cy == 1) then
        runLenAux b dx dy fuel (cx + dx) (cy + dy) + 1
      else 0 := rfl

/-- A run whose first cell already fails the guard has length 0. -/
theorem runLen_eq_zero (b : Board) (cx cy dx dy : Int)
    (h : (inside cx cy && (get2 b cx cy == 1)) = false) :
    runLen b cx cy dx dy = 0 := by
  unfold runLen
  rw [runLenAux_succ, if_neg (by rw [h]; exact Bool.false_ne_true)]

/-- A run with four occupied cells and a failing fifth guard has length 4. -/
theorem runLen_eq_four (b : Board) (cx cy dx dy : Int)
    (h0 : (inside cx cy && (get2 b cx cy == 1)) = true)
    (h1 : (inside (cx + dx) (cy + dy) &&
      (get2 b (cx + dx) (cy + dy) == 1)) = true)
    (h2 : (inside (cx + dx + dx) (cy + dy + dy) &&
      (get2 b (cx + dx + dx) (cy + dy + dy) == 1)) = true)
    (h3 : (inside (cx + dx + dx + dx) (cy + dy + dy + dy) &&
      (get2 b (cx + dx + dx + dx) (cy + dy + dy + dy) == 1)) = true)
    (h4 : (inside (cx + dx + dx + dx + dx) (cy + dy + dy + dy + dy) &&
      (get2 b (cx + dx + dx + dx + dx) (cy + dy + dy + dy + dy) == 1)) = false) :
    runLen b cx cy dx dy = 4 := by
  unfold runLen
  rw [runLenAux_succ, if_pos h0,
    show (N : Nat) = 20 + 1 from rfl, runLenAux_succ, if_pos h1,
    show (20 : Nat) = 19 + 1 from rfl, runLenAux_succ, if_pos h2,
    show (19 : Nat) = 18 + 1 from rfl, runLenAux_succ, if_pos h3,
    show (18 : Nat) = 17 + 1 from rfl, runLenAux_succ,
    if_neg (by rw [h4]; exact Bool.false_ne_true)]

/-- Loop-guard form of an occupied in-range cell. -/
theorem okcell (b : Board) (p q : Int) (h1 : inside p q = true)
    (h2 : get2 b p q = 1) :
    (inside p q && (get2 b p q == 1)) = true := by simp [h1, h2]

/-- Loop-guard form of a stopping cell: out of range or not occupied. -/
theorem stopcell (b : Board) (p q : Int)
    (h : inside p q = true → get2 b p q ≠ 1) :
    (inside p q && (get2 b p q == 1)) = false := by
  cases hin : inside p q with
  | false => simp
  | true => simp [h hin]

/-- Arithmetic reading of the `inside` guard. -/
theorem inside_iff (x y : Int) :
    inside x y = true ↔ 0 ≤ x ∧ x < 21 ∧ 0 ≤ y ∧ y < 21 := by
  simp only [inside, decide_eq_true_eq]
  norm_num [N]

/-- Reading a well-formed board after a single in-range write. -/
theorem get2_set2 (b : Board) (hwf : WFBoard b) (x y : Int) (v : Nat)
    (hxy : inside x y = true) (a c : Int) (hac : inside a c = true) :
    get2 (set2 b y x v) a c = if a = x ∧ c = y then v else get2 b a c := by
  rw [inside_iff] at hxy hac
  have hlen21 : b.length = 21 := hwf.1
  unfold get2 set2
  by_cases hcy : c = y
  · subst hcy
    have hylen : c.toNat < b.length := by omega
    have hrow : (b.set c.toNat ((b.getD c.toNat []).set x.toNat v)).getD c.toNat []
        = (b.getD c.toNat []).set x.toNat v := by
      simp [List.getD_eq_getElem?_getD, List.getElem?_set_self hylen]
    rw [hrow]
    by_cases hax : a = x
    · subst hax
      have hmem : b.getD c.toNat [] ∈ b := by
        rw [List.getD_eq_getElem?_getD, List.getElem?_eq_getElem hylen]
        simp
      have hrowlen : (b.getD c.toNat []).length = 21 := hwf.2 _ hmem
      have hxlen : a.toNat < (b.getD c.toNat []).length := by omega
      rw [if_pos ⟨rfl, rfl⟩]
      have hxlen' : a.toNat < (b[c.toNat]?.getD []).length := by
        simpa [List.getD_eq_getElem?_getD] using hxlen
      simp [List.getElem?_set_self hxlen']
    · have hne : x.toNat ≠ a.toNat := by omega
      rw [if_neg (by tauto)]
      simp [List.getD_eq_getElem?_getD, List.getElem?_set_ne hne]
  · have hne : y.toNat ≠ c.toNat := by omega
    rw [if_neg (by tauto)]
    simp [List.getD_eq_getElem?_getD, List.getElem?_set_ne hne]

/-- The non-rejecting branch of `linesCreatedIfPlaced`, exposed as the fold
over the four axes of the probed board. -/
theorem linesCreated_segs_eq (b : Board) (x y : Int) (ledger : List Seg)
    (hin : inside x y = true) (h0 : get2 b x y = 0) :
    (linesCreatedIfPlaced b x y ledger).segs =
      DIRS.enum.foldl
        (fun segs p => axisScan (set2 b y x 1) ledger x y p.2 p.1 segs) [] ∧
    (linesCreatedIfPlaced b x y ledger).count =
      (DIRS.enum.foldl
        (fun segs p => axisScan (set2 b y x 1) ledger x y p.2 p.1 segs) []).length := by
  unfold linesCreatedIfPlaced
  rw [if_neg (by push_neg; exact ⟨hin, h0⟩)]
  exact ⟨rfl, rfl⟩

/-- An axis whose two side runs are empty contributes no window. -/
theorem axisScan_skip (b : Board) (ex : List Seg) (x y : Int) (d : Int × Int)
    (ai : Nat) (segs : List Seg)
    (hl : runLen b (x - d.1) (y - d.2) (-d.1) (-d.2) = 0)
    (hr : runLen b (x + d.1) (y + d.2) d.1 d.2 = 0) :
    axisScan b ex x y d ai segs = segs := by
  simp only [axisScan]
  rw [hl, hr]
  norm_num

/-- An axis with four occupied cells on each side and an empty ledger
contributes exactly the two windows, left-heavy then right-heavy. -/
theorem axisScan_four_four (b : Board) (x y : Int) (d : Int × Int) (ai : Nat)
    (hl : runLen b (x - d.1) (y - d.2) (-d.1) (-d.2) = 4)
    (hr : runLen b (x + d.1) (y + d.2) d.1 d.2 = 4)
    (hne : sameKey (mkWindow x y d.1 d.2 4 0 ai) (mkWindow x y d.1 d.2 0 4 ai)
      = false) :
    axisScan b [] x y d ai [] =
      [mkWindow x y d.1 d.2 4 0 ai, mkWindow x y d.1 d.2 0 4 ai] := by
  have hpush1 : pushIfUnique [] [] (mkWindow x y d.1 d.2 4 0 ai) =
      [mkWindow x y d.1 d.2 4 0 ai] := by
    unfold pushIfUnique overlapsExisting
    simp
  have hpush2 : pushIfUnique [] [mkWindow x y d.1 d.2 4 0 ai]
      (mkWindow x y d.1 d.2 0 4 ai) =
      [mkWindow x y d.1 d.2 4 0 ai, mkWindow x y d.1 d.2 0 4 ai] := by
    unfold pushIfUnique overlapsExisting
    simp [hne]
  simp only [axisScan]
  rw [hl, hr]
  norm_num
  rw [hpush1, hpush2]

/-- The short-circuiting grid scan succeeds exactly when some empty in-range
cell evaluates to a positive count. -/
theorem findAnyLegalMove_iff (b : Board) (segs : List Seg) :
    findAnyLegalMove b segs = true ↔
      ∃ y : Nat, y < N ∧ ∃ x : Nat, x < N ∧
        get2 b (x : Int) (y : Int) = 0 ∧
        0 < (linesCreatedIfPlaced b (x : Int) (y : Int) segs).count := by
  unfold findAnyLegalMove
  simp [List.any_eq_true, List.mem_range, Bool.and_eq_true, beq_iff_eq,
    decide_eq_true_eq]

/-- A fold that appends a block per element equals the accumulator followed
by the concatenation of the blocks. -/
theorem foldl_push_eq {α β : Type} (step : List β → α → List β)
    (g : α → List β) (hs : ∀ out a, step out a = out ++ g a) :
    ∀ (l : List α) (acc : List β), l.foldl step acc = acc ++ l.flatMap g := by
  intro l
  induction l with
  | nil => intro acc; simp
  | cons a t ih =>
    intro acc
    simp only [List.foldl_cons, List.flatMap_cons, hs]
    rw [ih, List.append_assoc]

/-- The exhaustive scan returns a non-empty list exactly when some empty
in-range cell evaluates to a positive count. -/
theorem getAllLegalMoves_ne_nil_iff (b : Board) (segs : List Seg) :
    getAllLegalMoves b segs ≠ [] ↔
      ∃ y : Nat, y < N ∧ ∃ x : Nat, x < N ∧
        get2 b (x : Int) (y : Int) = 0 ∧
        0 < (linesCreatedIfPlaced b (x : Int) (y : Int) segs).count := by
  have hgx : ∀ yy : Nat, ∀ (out : List (Int × Int × Nat)) (xx : Nat),
      (if get2 b (xx : Int) (yy : Int) ≠ 0 then out
       else
        let r := linesCreatedIfPlaced b (xx : Int) (yy : Int) segs
        if 0 < r.count then out ++ [((xx : Int), (yy : Int), r.count)] else out) =
      out ++
        (if get2 b (xx : Int) (yy : Int) ≠ 0 then []
         else
          let r := linesCreatedIfPlaced b (xx : Int) (yy : Int) segs
          if 0 < r.count then [((xx : Int), (yy : Int), r.count)] else []) := by
    intro yy out xx
    by_cases hocc : get2 b (xx : Int) (yy : Int) ≠ 0
    · simp [hocc]
    · simp only [if_neg hocc]
      by_cases hcnt : 0 < (linesCreatedIfPlaced b (xx : Int) (yy : Int) segs).count
      · simp [hcnt]
      · simp [hcnt]
  have hinner : ∀ (yy : Nat) (out : List (Int × Int × Nat)),
      (List.range N).foldl
        (fun (out : List (Int × Int × Nat)) (xx : Nat) =>
          if get2 b (xx : Int) (yy : Int) ≠ 0 then out
          else
            let r := linesCreatedIfPlaced b (xx : Int) (yy : Int) segs
            if 0 < r.count then out ++ [((xx : Int), (yy : Int), r.count)] else out)
        out =
      out ++ (List.range N).flatMap
        (fun (xx : Nat) =>
          if get2 b (xx : Int) (yy : Int) ≠ 0 then []
          else
            let r := linesCreatedIfPlaced b (xx : Int) (yy : Int) segs
            if 0 < r.count then [((xx : Int), (yy : Int), r.count)] else []) :=
    fun yy out => foldl_push_eq _ _ (hgx yy) (List.range N) out
  have houter : getAllLegalMoves b segs =
      (List.range N).flatMap fun (yy : Nat) => (List.range N).flatMap
        fun (xx : Nat) =>
          if get2 b (xx : Int) (yy : Int) ≠ 0 then []
          else
            let r := linesCreatedIfPlaced b (xx : Int) (yy : Int) segs
            if 0 < r.count then [((xx : Int), (yy : Int), r.count)] else [] := by
    have h0 := foldl_push_eq
      (fun (out : List (Int × Int × Nat)) (yy : Nat) => (List.range N).foldl
        (fun (out : List (Int × Int × Nat)) (xx : Nat) =>
          if get2 b (xx : Int) (yy : Int) ≠ 0 then out
          else
            let r := linesCreatedIfPlaced b (xx : Int) (yy : Int) segs
            if 0 < r.count then out ++ [((xx : Int), (yy : Int), r.count)] else out)
        out)
      (fun (yy : Nat) => (List.range N).flatMap
        (fun (xx : Nat) =>
          if get2 b (xx : Int) (yy : Int) ≠ 0 then []
          else
            let r := linesCreatedIfPlaced b (xx : Int) (yy : Int) segs
            if 0 < r.count then [((xx : Int), (yy : Int), r.count)] else []))
      (fun out yy => hinner yy out) (List.range N) []
    exact h0
  rw [houter]
  constructor
  · intro hne
    by_contra hnot
    push_neg at hnot
    apply hne
    rw [List.flatMap_eq_nil_iff]
    intro yy hyy
    rw [List.flatMap_eq_nil_iff]
    intro xx hxx
    by_cases hocc : get2 b (xx : Int) (yy : Int) ≠ 0
    · rw [if_pos hocc]
    · push_neg at hocc
      rw [if_neg (fun hh => hh hocc)]
      have hz := hnot yy (List.mem_range.mp hyy) xx (List.mem_range.mp hxx) hocc
      simp [hz]
  · rintro ⟨yy, hyy, xx, hxx, hocc, hcnt⟩ hnil
    rw [List.flatMap_eq_nil_iff] at hnil
    have h1 := hnil yy (List.mem_range.mpr hyy)
    rw [List.flatMap_eq_nil_iff] at h1
    have h2 := h1 xx (List.mem_range.mpr hxx)
    rw [if_neg (fun hh => hh hocc)] at h2
    simp [hcnt] at h2

/-- C8. Enumerator agreement: `findAnyLegalMove` succeeds iff some empty
in-range cell has a positive evaluation count, iff `getAllLegalMoves` on the
same board and ledger is non-empty. -/
theorem C8_enumerator_agreement (b : Board) (segs : List Seg) :
    (findAnyLegalMove b segs = true ↔
      ∃ y : Nat, y < N ∧ ∃ x : Nat, x < N ∧
        get2 b (x : Int) (y : Int) = 0 ∧
        0 < (linesCreatedIfPlaced b (x : Int) (y : Int) segs).count) ∧
    (findAnyLegalMove b segs = true ↔ getAllLegalMoves b segs ≠ []) :=
  ⟨findAnyLegalMove_iff b segs,
    by rw [findAnyLegalMove_iff, getAllLegalMoves_ne_nil_iff]⟩

/-- With no legal move anywhere, every click is rejected. -/
theorem no_legal_click_noop (st : GameState)
    (h : findAnyLegalMove st.board st.segments = false) (x y : Int) :
    handleCellClick st x y = st := by
  apply handleCellClick_noop
  by_cases hocc : get2 st.board x y ≠ 0
  · exact Or.inr (Or.inl hocc)
  · push_neg at hocc
    refine Or.inr (Or.inr ?_)
    by_cases hin : inside x y = true
    · by_contra hcnt
      have hpos : 0 < (linesCreatedIfPlaced st.board x y st.segments).count :=
        Nat.pos_of_ne_zero hcnt
      have hxb : (0 : Int) ≤ x ∧ x < (N : Int) ∧ (0 : Int) ≤ y ∧ y < (N : Int) := by
        simpa [inside] using hin
      have hxcast : ((x.toNat : Nat) : Int) = x := Int.toNat_of_nonneg hxb.1
      have hycast : ((y.toNat : Nat) : Int) = y := Int.toNat_of_nonneg hxb.2.2.1
      have : findAnyLegalMove st.board st.segments = true := by
        rw [findAnyLegalMove_iff]
        refine ⟨y.toNat, ?_, x.toNat, ?_, ?_, ?_⟩
        · have := hxb.2.2.2
          omega
        · have := hxb.2.1
          omega
        · rw [hxcast, hycast]; exact hocc
        · rw [hxcast, hycast]; exact hpos
      rw [this] at h
      cases h
    · rw [Bool.not_eq_true] at hin
      rw [linesCreated_out_of_bounds st.board x y st.segments hin]

/-- C9. Monotonic termination: once no legal move exists, any further
sequence of clicks leaves board, ledger and score unchanged, and no legal
move ever exists again (only the game-over flag may flip to true). -/
theorem C9_monotonic_termination (st : GameState)
    (h : findAnyLegalMove st.board st.segments = false)
    (ms : List (Int × Int)) :
    (ms.foldl stepClick st).board = st.board ∧
    (ms.foldl stepClick st).segments = st.segments ∧
    (ms.foldl stepClick st).score = st.score ∧
    findAnyLegalMove (ms.foldl stepClick st).board
      (ms.foldl stepClick st).segments = false := by
  have main : ∀ (ms : List (Int × Int)) (st : GameState),
      findAnyLegalMove st.board st.segments = false →
      (ms.foldl stepClick st).board = st.board ∧
      (ms.foldl stepClick st).segments = st.segments ∧
      (ms.foldl stepClick st).score = st.score ∧
      findAnyLegalMove (ms.foldl stepClick st).board
        (ms.foldl stepClick st).segments = false := by
    intro ms
    induction ms with
    | nil => intro st h; exact ⟨rfl, rfl, rfl, h⟩
    | cons m t ih =>
      intro st h
      have hstep : stepClick st m = { st with gameOver := true } := by
        unfold stepClick
        rw [no_legal_click_noop st h m.1 m.2]
        unfold applyTerminationCheck
        rw [h]
        simp
      rw [List.foldl_cons, hstep]
      exact ih { st with gameOver := true } h
  exact main ms st h

/-- Witness for C9 on the fully occupied board: no legal move exists, and one
more click at (5,5) changes neither board nor ledger nor score, and still no
legal move exists. -/
theorem C9_witness :
    findAnyLegalMove allOnesBoard [] = false ∧
    (([((5 : Int), (5 : Int))].foldl stepClick
        { board := allOnesBoard, score := 0, moves := 0, gameOver := false,
          segments := [] }).board = allOnesBoard ∧
      ([((5 : Int), (5 : Int))].foldl stepClick
        { board := allOnesBoard, score := 0, moves := 0, gameOver := false,
          segments := [] }).segments = [] ∧
      ([((5 : Int), (5 : Int))].foldl stepClick
        { board := allOnesBoard, score := 0, moves := 0, gameOver := false,
          segments := [] }).score = 0 ∧
      findAnyLegalMove
        (([((5 : Int), (5 : Int))].foldl stepClick
          { board := allOnesBoard, score := 0, moves := 0, gameOver := false,
            segments := [] }).board)
        (([((5 : Int), (5 : Int))].foldl stepClick
          { board := allOnesBoard, score := 0, moves := 0, gameOver := false,
            segments := [] }).segments) = false) :=
  ⟨by decide,
    C9_monotonic_termination
      { board := allOnesBoard, score := 0, moves := 0, gameOver := false,
        segments := [] } (by decide) [(5, 5)]⟩

/-- C2. Nine-run double score: on a well-formed board whose occupied cells
within range are exactly the four cells on each side of the empty target
(x, y) along one of the four axes (the whole 9-cell run lying inside the
grid), evaluation with an empty ledger accepts exactly the left-heavy and the
right-heavy windows of that axis: two windows, no more, no fewer. -/
theorem C2_nine_run_two_windows (b : Board) (x y dx dy : Int) (i : Nat)
    (hi : i < 4) (hd : DIRS.getD i (0, 0) = (dx, dy)) (hwf : WFBoard b)
    (hin : ∀ k ∈ [(-4 : Int), -3, -2, -1, 0, 1, 2, 3, 4],
      inside (x + k * dx) (y + k * dy) = true)
    (hocc : ∀ a : Nat, a < N → ∀ c : Nat, c < N →
      get2 b (a : Int) (c : Int) =
        if runCell x y dx dy (a : Int) (c : Int) then 1 else 0) :
    (linesCreatedIfPlaced b x y []).segs =
      [mkWindow x y dx dy 4 0 i, mkWindow x y dx dy 0 4 i] ∧
    (linesCreatedIfPlaced b x y []).count = 2 := by
  have hoccI : ∀ a c : Int, inside a c = true →
      get2 b a c = if runCell x y dx dy a c then 1 else 0 := by
    intro a c hac
    have h1 := (inside_iff a c).mp hac
    have h2 := hocc a.toNat (by omega : a.toNat < 21) c.toNat (by omega : c.toNat < 21)
    rwa [Int.toNat_of_nonneg h1.1, Int.toNat_of_nonneg h1.2.2.1] at h2
  have hxy_in : inside x y = true := by
    have h := hin 0 (by decide)
    simpa using h
  have hb1 : ∀ a c : Int, inside a c = true →
      get2 (set2 b y x 1) a c =
        if a = x ∧ c = y then 1 else if runCell x y dx dy a c then 1 else 0 := by
    intro a c hac
    rw [get2_set2 b hwf x y 1 hxy_in a c hac]
    split
    · rfl
    · exact hoccI a c hac
  interval_cases i
  · -- axis 0: (1, 0)
    have hd0 : ((1 : Int), (0 : Int)) = (dx, dy) := hd
    injection hd0 with e1 e2
    subst e1; subst e2
    have hbm4 := (inside_iff _ _).mp (hin (-4) (by decide))
    have hbp4 := (inside_iff _ _).mp (hin 4 (by decide))
    have hb0 := (inside_iff _ _).mp (hin 0 (by decide))
    have hget0 : get2 b x y = 0 := by
      rw [hoccI x y hxy_in, if_neg]
      rintro ⟨k, hk, v1, v2⟩
      simp at hk
      rcases hk with rfl | rfl | rfl | rfl | rfl | rfl | rfl | rfl <;> omega
    have hl4 : runLen (set2 b y x 1) (x - 1) (y - 0) (-1) (-0) = 4 := by
      refine runLen_eq_four _ _ _ _ _
        (okcell _ _ _ ?_ ?_) (okcell _ _ _ ?_ ?_) (okcell _ _ _ ?_ ?_)
        (okcell _ _ _ ?_ ?_) (stopcell _ _ _ ?_)
      · rw [inside_iff]; omega
      · rw [hb1 _ _ (by rw [inside_iff]; omega),
          if_neg (by rintro ⟨v1, v2⟩; omega),
          if_pos ⟨-1, by decide, by omega, by omega⟩]
      · rw [inside_iff]; omega
      · rw [hb1 _ _ (by rw [inside_iff]; omega),
          if_neg (by rintro ⟨v1, v2⟩; omega),
          if_pos ⟨-2, by decide, by omega, by omega⟩]
      · rw [inside_iff]; omega
      · rw [hb1 _ _ (by rw [inside_iff]; omega),
          if_neg (by rintro ⟨v1, v2⟩; omega),
          if_pos ⟨-3, by decide, by omega, by omega⟩]
      · rw [inside_iff]; omega
      · rw [hb1 _ _ (by rw [inside_iff]; omega),
          if_neg (by rintro ⟨v1, v2⟩; omega),
          if_pos ⟨-4, by decide, by omega, by omega⟩]
      · intro hin5
        rw [hb1 _ _ hin5, if_neg (by rintro ⟨v1, v2⟩; omega),
          if_neg (by
            rintro ⟨k, hk, v1, v2⟩
            simp at hk
            rcases hk with rfl | rfl | rfl | rfl | rfl | rfl | rfl | rfl <;> omega)]
        decide
    have hr4 : runLen (set2 b y x 1) (x + 1) (y + 0) (1) (0) = 4 := by
      refine runLen_eq_four _ _ _ _ _
        (okcell _ _ _ ?_ ?_) (okcell _ _ _ ?_ ?_) (okcell _ _ _ ?_ ?_)
        (okcell _ _ _ ?_ ?_) (stopcell _ _ _ ?_)
      · rw [inside_iff]; omega
      · rw [hb1 _ _ (by rw [inside_iff]; omega),
          if_neg (by rintro ⟨v1, v2⟩; omega),
          if_pos ⟨1, by decide, by omega, by omega⟩]
      · rw [inside_iff]; omega
      · rw [hb1 _ _ (by rw [inside_iff]; omega),
          if_neg (by rintro ⟨v1, v2⟩; omega),
          if_pos ⟨2, by decide, by omega, by omega⟩]
      · rw [inside_iff]; omega
      · rw [hb1 _ _ (by rw [inside_iff]; omega),
          if_neg (by rintro ⟨v1, v2⟩; omega),
          if_pos ⟨3, by decide, by omega, by omega⟩]
      · rw [inside_iff]; omega
      · rw [hb1 _ _ (by rw [inside_iff]; omega),
          if_neg (by rintro ⟨v1, v2⟩; omega),
          if_pos ⟨4, by decide, by omega, by omega⟩]
      · intro hin5
        rw [hb1 _ _ hin5, if_neg (by rintro ⟨v1, v2⟩; omega),
          if_neg (by
            rintro ⟨k, hk, v1, v2⟩
            simp at hk
            rcases hk with rfl | rfl | rfl | rfl | rfl | rfl | rfl | rfl <;> omega)]
        decide
    have hstop : ∀ p q : Int,
        ((p = x ∧ q = y) → False) →
        ¬ runCell x y 1 0 p q →
        (inside p q && (get2 (set2 b y x 1) p q == 1)) = false := by
      intro p q hn1 hn2
      apply stopcell
      intro hinp
      rw [hb1 _ _ hinp, if_neg hn1, if_neg hn2]
      decide
    have hsk1l : runLen (set2 b y x 1) (x - 0) (y - 1) (-0) (-1) = 0 :=
      runLen_eq_zero _ _ _ _ _ (hstop _ _
        (by rintro ⟨v1, v2⟩; omega)
        (by rintro ⟨k, hk, v1, v2⟩; simp at hk
            rcases hk with rfl | rfl | rfl | rfl | rfl | rfl | rfl | rfl <;> omega))
    have hsk1r : runLen (set2 b y x 1) (x + 0) (y + 1) (0) (1) = 0 :=
      runLen_eq_zero _ _ _ _ _ (hstop _ _
        (by rintro ⟨v1, v2⟩; omega)
        (by rintro ⟨k, hk, v1, v2⟩; simp at hk
            rcases hk with rfl | rfl | rfl | rfl | rfl | rfl | rfl | rfl <;> omega))
    have hsk2l : runLen (set2 b y x 1) (x - 1) (y - 1) (-1) (-1) = 0 :=
      runLen_eq_zero _ _ _ _ _ (hstop _ _
        (by rintro ⟨v1, v2⟩; omega)
        (by rintro ⟨k, hk, v1, v2⟩; simp at hk
            rcases hk with rfl | rfl | rfl | rfl | rfl | rfl | rfl | rfl <;> omega))
    have hsk2r : runLen (set2 b y x 1) (x + 1) (y + 1) (1) (1) = 0 :=
      runLen_eq_zero _ _ _ _ _ (hstop _ _
        (by rintro ⟨v1, v2⟩; omega)
        (by rintro ⟨k, hk, v1, v2⟩; simp at hk
            rcases hk with rfl | rfl | rfl | rfl | rfl | rfl | rfl | rfl <;> omega))
    have hsk3l : runLen (set2 b y x 1) (x - 1) (y - -1) (-1) (- -1) = 0 :=
      runLen_eq_zero _ _ _ _ _ (hstop _ _
        (by rintro ⟨v1, v2⟩; omega)
        (by rintro ⟨k, hk, v1, v2⟩; simp at hk
            rcases hk with rfl | rfl | rfl | rfl | rfl | rfl | rfl | rfl <;> omega))
    have hsk3r : runLen (set2 b y x 1) (x + 1) (y + -1) (1) (-1) = 0 :=
      runLen_eq_zero _ _ _ _ _ (hstop _ _
        (by rintro ⟨v1, v2⟩; omega)
        (by rintro ⟨k, hk, v1, v2⟩; simp at hk
            rcases hk with rfl | rfl | rfl | rfl | rfl | rfl | rfl | rfl <;> omega))
    have hax0 : axisScan (set2 b y x 1) [] x y ((1 : Int), (0 : Int)) 0 [] =
        [mkWindow x y 1 0 4 0 0, mkWindow x y 1 0 0 4 0] := by
      apply axisScan_four_four (set2 b y x 1) x y ((1 : Int), (0 : Int)) 0 hl4 hr4
      simp only [sameKey, segKey, mkWindow, decide_eq_false_iff_not, Prod.mk.injEq]
      rintro ⟨v1, v2, v3, v4, v5⟩
      omega
    have hax1 := axisScan_skip (set2 b y x 1) [] x y ((0 : Int), (1 : Int)) 1
      [mkWindow x y 1 0 4 0 0, mkWindow x y 1 0 0 4 0] hsk1l hsk1r
    have hax2 := axisScan_skip (set2 b y x 1) [] x y ((1 : Int), (1 : Int)) 2
      [mkWindow x y 1 0 4 0 0, mkWindow x y 1 0 0 4 0] hsk2l hsk2r
    have hax3 := axisScan_skip (set2 b y x 1) [] x y ((1 : Int), (-1 : Int)) 3
      [mkWindow x y 1 0 4 0 0, mkWindow x y 1 0 0 4 0] hsk3l hsk3r
    have hsegs := linesCreated_segs_eq b x y [] hxy_in hget0
    have e : DIRS.enum = [(0, ((1 : Int), (0 : Int))), (1, (0, 1)), (2, (1, 1)), (3, (1, -1))] := rfl
    rw [e] at hsegs
    simp only [List.foldl_cons, List.foldl_nil] at hsegs
    rw [hax0, hax1, hax2, hax3] at hsegs
    exact ⟨hsegs.1, by rw [hsegs.2]; rfl⟩
  · -- axis 1: (0, 1)
    have hd0 : ((0 : Int), (1 : Int)) = (dx, dy) := hd
    injection hd0 with e1 e2
    subst e1; subst e2
    have hbm4 := (inside_iff _ _).mp (hin (-4) (by decide))
    have hbp4 := (inside_iff _ _).mp (hin 4 (by decide))
    have hb0 := (inside_iff _ _).mp (hin 0 (by decide))
    have hget0 : get2 b x y = 0 := by
      rw [hoccI x y hxy_in, if_neg]
      rintro ⟨k, hk, v1, v2⟩
      simp at hk
      rcases hk with rfl | rfl | rfl | rfl | rfl | rfl | rfl | rfl <;> omega
    have hl4 : runLen (set2 b y x 1) (x - 0) (y - 1) (-0) (-1) = 4 := by
      refine runLen_eq_four _ _ _ _ _
        (okcell _ _ _ ?_ ?_) (okcell _ _ _ ?_ ?_) (okcell _ _ _ ?_ ?_)
        (okcell _ _ _ ?_ ?_) (stopcell _ _ _ ?_)
      · rw [inside_iff]; omega
      · rw [hb1 _ _ (by rw [inside_iff]; omega),
          if_neg (by rintro ⟨v1, v2⟩; omega),
          if_pos ⟨-1, by decide, by omega, by omega⟩]
      · rw [inside_iff]; omega
      · rw [hb1 _ _ (by rw [inside_iff]; omega),
          if_neg (by rintro ⟨v1, v2⟩; omega),
          if_pos ⟨-2, by decide, by omega, by omega⟩]
      · rw [inside_iff]; omega
      · rw [hb1 _ _ (by rw [inside_iff]; omega),
          if_neg (by rintro ⟨v1, v2⟩; omega),
          if_pos ⟨-3, by decide, by omega, by omega⟩]
      · rw [inside_iff]; omega
      · rw [hb1 _ _ (by rw [inside_iff]; omega),
          if_neg (by rintro ⟨v1, v2⟩; omega),
          if_pos ⟨-4, by decide, by omega, by omega⟩]
      · intro hin5
        rw [hb1 _ _ hin5, if_neg (by rintro ⟨v1, v2⟩; omega),
          if_neg (by
            rintro ⟨k, hk, v1, v2⟩
            simp at hk
            rcases hk with rfl | rfl | rfl | rfl | rfl | rfl | rfl | rfl <;> omega)]
        decide
    have hr4 : runLen (set2 b y x 1) (x + 0) (y + 1) (0) (1) = 4 := by
      refine runLen_eq_four _ _ _ _ _
        (okcell _ _ _ ?_ ?_) (okcell _ _ _ ?_ ?_) (okcell _ _ _ ?_ ?_)
        (okcell _ _ _ ?_ ?_) (stopcell _ _ _ ?_)
      · rw [inside_iff]; omega
      · rw [hb1 _ _ (by rw [inside_iff]; omega),
          if_neg (by rintro ⟨v1, v2⟩; omega),
          if_pos ⟨1, by decide, by omega, by omega⟩]
      · rw [inside_iff]; omega
      · rw [hb1 _ _ (by rw [inside_iff]; omega),
          if_neg (by rintro ⟨v1, v2⟩; omega),
          if_pos ⟨2, by decide, by omega, by omega⟩]
      · rw [inside_iff]; omega
      · rw [hb1 _ _ (by rw [inside_iff]; omega),
          if_neg (by rintro ⟨v1, v2⟩; omega),
          if_pos ⟨3, by decide, by omega, by omega⟩]
      · rw [inside_iff]; omega
      · rw [hb1 _ _ (by rw [inside_iff]; omega),
          if_neg (by rintro ⟨v1, v2⟩; omega),
          if_pos ⟨4, by decide, by omega, by omega⟩]
      · intro hin5
        rw [hb1 _ _ hin5, if_neg (by rintro ⟨v1, v2⟩; omega),
          if_neg (by
            rintro ⟨k, hk, v1, v2⟩
            simp at hk
            rcases hk with rfl | rfl | rfl | rfl | rfl | rfl | rfl | rfl <;> omega)]
        decide
    have hstop : ∀ p q : Int,
        ((p = x ∧ q = y) → False) →
        ¬ runCell x y 0 1 p q →
        (inside p q && (get2 (set2 b y x 1) p q == 1)) = false := by
      intro p q hn1 hn2
      apply stopcell
      intro hinp
      rw [hb1 _ _ hinp, if_neg hn1, if_neg hn2]
      decide
    have hsk0l : runLen (set2 b y x 1) (x - 1) (y - 0) (-1) (-0) = 0 :=
      runLen_eq_zero _ _ _ _ _ (hstop _ _
        (by rintro ⟨v1, v2⟩; omega)
        (by rintro ⟨k, hk, v1, v2⟩; simp at hk
            rcases hk with rfl | rfl | rfl | rfl | rfl | rfl | rfl | rfl <;> omega))
    have hsk0r : runLen (set2 b y x 1) (x + 1) (y + 0) (1) (0) = 0 :=
      runLen_eq_zero _ _ _ _ _ (hstop _ _
        (by rintro ⟨v1, v2⟩; omega)
        (by rintro ⟨k, hk, v1, v2⟩; simp at hk
            rcases hk with rfl | rfl | rfl | rfl | rfl | rfl | rfl | rfl <;> omega))
    have hsk2l : runLen (set2 b y x 1) (x - 1) (y - 1) (-1) (-1) = 0 :=
      runLen_eq_zero _ _ _ _ _ (hstop _ _
        (by rintro ⟨v1, v2⟩; omega)
        (by rintro ⟨k, hk, v1, v2⟩; simp at hk
            rcases hk with rfl | rfl | rfl | rfl | rfl | rfl | rfl | rfl <;> omega))
    have hsk2r : runLen (set2 b y x 1) (x + 1) (y + 1) (1) (1) = 0 :=
      runLen_eq_zero _ _ _ _ _ (hstop _ _
        (by rintro ⟨v1, v2⟩; omega)
        (by rintro ⟨k, hk, v1, v2⟩; simp at hk
            rcases hk with rfl | rfl | rfl | rfl | rfl | rfl | rfl | rfl <;> omega))
    have hsk3l : runLen (set2 b y x 1) (x - 1) (y - -1) (-1) (- -1) = 0 :=
      runLen_eq_zero _ _ _ _ _ (hstop _ _
        (by rintro ⟨v1, v2⟩; omega)
        (by rintro ⟨k, hk, v1, v2⟩; simp at hk
            rcases hk with rfl | rfl | rfl | rfl | rfl | rfl | rfl | rfl <;> omega))
    have hsk3r : runLen (set2 b y x 1) (x + 1) (y + -1) (1) (-1) = 0 :=
      runLen_eq_zero _ _ _ _ _ (hstop _ _
        (by rintro ⟨v1, v2⟩; omega)
        (by rintro ⟨k, hk, v1, v2⟩; simp at hk
            rcases hk with rfl | rfl | rfl | rfl | rfl | rfl | rfl | rfl <;> omega))
    have hax1 : axisScan (set2 b y x 1) [] x y ((0 : Int), (1 : Int)) 1 [] =
        [mkWindow x y 0 1 4 0 1, mkWindow x y 0 1 0 4 1] := by
      apply axisScan_four_four (set2 b y x 1) x y ((0 : Int), (1 : Int)) 1 hl4 hr4
      simp only [sameKey, segKey, mkWindow, decide_eq_false_iff_not, Prod.mk.injEq]
      rintro ⟨v1, v2, v3, v4, v5⟩
      omega
    have hax0 := axisScan_skip (set2 b y x 1) [] x y ((1 : Int), (0 : Int)) 0
      [] hsk0l hsk0r
    have hax2 := axisScan_skip (set2 b y x 1) [] x y ((1 : Int), (1 : Int)) 2
      [mkWindow x y 0 1 4 0 1, mkWindow x y 0 1 0 4 1] hsk2l hsk2r
    have hax3 := axisScan_skip (set2 b y x 1) [] x y ((1 : Int), (-1 : Int)) 3
      [mkWindow x y 0 1 4 0 1, mkWindow x y 0 1 0 4 1] hsk3l hsk3r
    have hsegs := linesCreated_segs_eq b x y [] hxy_in hget0
    have e : DIRS.enum = [(0, ((1 : Int), (0 : Int))), (1, (0, 1)), (2, (1, 1)), (3, (1, -1))] := rfl
    rw [e] at hsegs
    simp only [List.foldl_cons, List.foldl_nil] at hsegs
    rw [hax0, hax1, hax2, hax3] at hsegs
    exact ⟨hsegs.1, by rw [hsegs.2]; rfl⟩
  · -- axis 2: (1, 1)
    have hd0 : ((1 : Int), (1 : Int)) = (dx, dy) := hd
    injection hd0 with e1 e2
    subst e1; subst e2
    have hbm4 := (inside_iff _ _).mp (hin (-4) (by decide))
    have hbp4 := (inside_iff _ _).mp (hin 4 (by decide))
    have hb0 := (inside_iff _ _).mp (hin 0 (by decide))
    have hget0 : get2 b x y = 0 := by
      rw [hoccI x y hxy_in, if_neg]
      rintro ⟨k, hk, v1, v2⟩
      simp at hk
      rcases hk with rfl | rfl | rfl | rfl | rfl | rfl | rfl | rfl <;> omega
    have hl4 : runLen (set2 b y x 1) (x - 1) (y - 1) (-1) (-1) = 4 := by
      refine runLen_eq_four _ _ _ _ _
        (okcell _ _ _ ?_ ?_) (okcell _ _ _ ?_ ?_) (okcell _ _ _ ?_ ?_)
        (okcell _ _ _ ?_ ?_) (stopcell _ _ _ ?_)
      · rw [inside_iff]; omega
      · rw [hb1 _ _ (by rw [inside_iff]; omega),
          if_neg (by rintro ⟨v1, v2⟩; omega),
          if_pos ⟨-1, by decide, by omega, by omega⟩]
      · rw [inside_iff]; omega
      · rw [hb1 _ _ (by rw [inside_iff]; omega),
          if_neg (by rintro ⟨v1, v2⟩; omega),
          if_pos ⟨-2, by decide, by omega, by omega⟩]
      · rw [inside_iff]; omega
      · rw [hb1 _ _ (by rw [inside_iff]; omega),
          if_neg (by rintro ⟨v1, v2⟩; omega),
          if_pos ⟨-3, by decide, by omega, by omega⟩]
      · rw [inside_iff]; omega
      · rw [hb1 _ _ (by rw [inside_iff]; omega),
          if_neg (by rintro ⟨v1, v2⟩; omega),
          if_pos ⟨-4, by decide, by omega, by omega⟩]
      · intro hin5
        rw [hb1 _ _ hin5, if_neg (by rintro ⟨v1, v2⟩; omega),
          if_neg (by
            rintro ⟨k, hk, v1, v2⟩
            simp at hk
            rcases hk with rfl | rfl | rfl | rfl | rfl | rfl | rfl | rfl <;> omega)]
        decide
    have hr4 : runLen (set2 b y x 1) (x + 1) (y + 1) (1) (1) = 4 := by
      refine runLen_eq_four _ _ _ _ _
        (okcell _ _ _ ?_ ?_) (okcell _ _ _ ?_ ?_) (okcell _ _ _ ?_ ?_)
        (okcell _ _ _ ?_ ?_) (stopcell _ _ _ ?_)
      · rw [inside_iff]; omega
      · rw [hb1 _ _ (by rw [inside_iff]; omega),
          if_neg (by rintro ⟨v1, v2⟩; omega),
          if_pos ⟨1, by decide, by omega, by omega⟩]
      · rw [inside_iff]; omega
      · rw [hb1 _ _ (by rw [inside_iff]; omega),
          if_neg (by rintro ⟨v1, v2⟩; omega),
          if_pos ⟨2, by decide, by omega, by omega⟩]
      · rw [inside_iff]; omega
      · rw [hb1 _ _ (by rw [inside_iff]; omega),
          if_neg (by rintro ⟨v1, v2⟩; omega),
          if_pos ⟨3, by decide, by omega, by omega⟩]
      · rw [inside_iff]; omega
      · rw [hb1 _ _ (by rw [inside_iff]; omega),
          if_neg (by rintro ⟨v1, v2⟩; omega),
          if_pos ⟨4, by decide, by omega, by omega⟩]
      · intro hin5
        rw [hb1 _ _ hin5, if_neg (by rintro ⟨v1, v2⟩; omega),
          if_neg (by
            rintro ⟨k, hk, v1, v2⟩
            simp at hk
            rcases hk with rfl | rfl | rfl | rfl | rfl | rfl | rfl | rfl <;> omega)]
        decide
    have hstop : ∀ p q : Int,
        ((p = x ∧ q = y) → False) →
        ¬ runCell x y 1 1 p q →
        (inside p q && (get2 (set2 b y x 1) p q == 1)) = false := by
      intro p q hn1 hn2
      apply stopcell
      intro hinp
      rw [hb1 _ _ hinp, if_neg hn1, if_neg hn2]
      decide
    have hsk0l : runLen (set2 b y x 1) (x - 1) (y - 0) (-1) (-0) = 0 :=
      runLen_eq_zero _ _ _ _ _ (hstop _ _
        (by rintro ⟨v1, v2⟩; omega)
        (by rintro ⟨k, hk, v1, v2⟩; simp at hk
            rcases hk with rfl | rfl | rfl | rfl | rfl | rfl | rfl | rfl <;> omega))
    have hsk0r : runLen (set2 b y x 1) (x + 1) (y + 0) (1) (0) = 0 :=
      runLen_eq_zero _ _ _ _ _ (hstop _ _
        (by rintro ⟨v1, v2⟩; omega)
        (by rintro ⟨k, hk, v1, v2⟩; simp at hk
            rcases hk with rfl | rfl | rfl | rfl | rfl | rfl | rfl | rfl <;> omega))
    have hsk1l : runLen (set2 b y x 1) (x - 0) (y - 1) (-0) (-1) = 0 :=
      runLen_eq_zero _ _ _ _ _ (hstop _ _
        (by rintro ⟨v1, v2⟩; omega)
        (by rintro ⟨k, hk, v1, v2⟩; simp at hk
            rcases hk with rfl | rfl | rfl | rfl | rfl | rfl | rfl | rfl <;> omega))
    have hsk1r : runLen (set2 b y x 1) (x + 0) (y + 1) (0) (1) = 0 :=
      runLen_eq_zero _ _ _ _ _ (hstop _ _
        (by rintro ⟨v1, v2⟩; omega)
        (by rintro ⟨k, hk, v1, v2⟩; simp at hk
            rcases hk with rfl | rfl | rfl | rfl | rfl | rfl | rfl | rfl <;> omega))
    have hsk3l : runLen (set2 b y x 1) (x - 1) (y - -1) (-1) (- -1) = 0 :=
      runLen_eq_zero _ _ _ _ _ (hstop _ _
        (by rintro ⟨v1, v2⟩; omega)
        (by rintro ⟨k, hk, v1, v2⟩; simp at hk
            rcases hk with rfl | rfl | rfl | rfl | rfl | rfl | rfl | rfl <;> omega))
    have hsk3r : runLen (set2 b y x 1) (x + 1) (y + -1) (1) (-1) = 0 :=
      runLen_eq_zero _ _ _ _ _ (hstop _ _
        (by rintro ⟨v1, v2⟩; omega)
        (by rintro ⟨k, hk, v1, v2⟩; simp at hk
            rcases hk with rfl | rfl | rfl | rfl | rfl | rfl | rfl | rfl <;> omega))
    have hax2 : axisScan (set2 b y x 1) [] x y ((1 : Int), (1 : Int)) 2 [] =
        [mkWindow x y 1 1 4 0 2, mkWindow x y 1 1 0 4 2] := by
      apply axisScan_four_four (set2 b y x 1) x y ((1 : Int), (1 : Int)) 2 hl4 hr4
      simp only [sameKey, segKey, mkWindow, decide_eq_false_iff_not, Prod.mk.injEq]
      rintro ⟨v1, v2, v3, v4, v5⟩
      omega
    have hax0 := axisScan_skip (set2 b y x 1) [] x y ((1 : Int), (0 : Int)) 0
      [] hsk0l hsk0r
    have hax1 := axisScan_skip (set2 b y x 1) [] x y ((0 : Int), (1 : Int)) 1
      [] hsk1l hsk1r
    have hax3 := axisScan_skip (set2 b y x 1) [] x y ((1 : Int), (-1 : Int)) 3
      [mkWindow x y 1 1 4 0 2, mkWindow x y 1 1 0 4 2] hsk3l hsk3r
    have hsegs := linesCreated_segs_eq b x y [] hxy_in hget0
    have e : DIRS.enum = [(0, ((1 : Int), (0 : Int))), (1, (0, 1)), (2, (1, 1)), (3, (1, -1))] := rfl
    rw [e] at hsegs
    simp only [List.foldl_cons, List.foldl_nil] at hsegs
    rw [hax0, hax1, hax2, hax3] at hsegs
    exact ⟨hsegs.1, by rw [hsegs.2]; rfl⟩
  · -- axis 3: (1, -1)
    have hd0 : ((1 : Int), (-1 : Int)) = (dx, dy) := hd
    injection hd0 with e1 e2
    subst e1; subst e2
    have hbm4 := (inside_iff _ _).mp (hin (-4) (by decide))
    have hbp4 := (inside_iff _ _).mp (hin 4 (by decide))
    have hb0 := (inside_iff _ _).mp (hin 0 (by decide))
    have hget0 : get2 b x y = 0 := by
      rw [hoccI x y hxy_in, if_neg]
      rintro ⟨k, hk, v1, v2⟩
      simp at hk
      rcases hk with rfl | rfl | rfl | rfl | rfl | rfl | rfl | rfl <;> omega
    have hl4 : runLen (set2 b y x 1) (x - 1) (y - -1) (-1) (- -1) = 4 := by
      refine runLen_eq_four _ _ _ _ _
        (okcell _ _ _ ?_ ?_) (okcell _ _ _ ?_ ?_) (okcell _ _ _ ?_ ?_)
        (okcell _ _ _ ?_ ?_) (stopcell _ _ _ ?_)
      · rw [inside_iff]; omega
      · rw [hb1 _ _ (by rw [inside_iff]; omega),
          if_neg (by rintro ⟨v1, v2⟩; omega),
          if_pos ⟨-1, by decide, by omega, by omega⟩]
      · rw [inside_iff]; omega
      · rw [hb1 _ _ (by rw [inside_iff]; omega),
          if_neg (by rintro ⟨v1, v2⟩; omega),
          if_pos ⟨-2, by decide, by omega, by omega⟩]
      · rw [inside_iff]; omega
      · rw [hb1 _ _ (by rw [inside_iff]; omega),
          if_neg (by rintro ⟨v1, v2⟩; omega),
          if_pos ⟨-3, by decide, by omega, by omega⟩]
      · rw [inside_iff]; omega
      · rw [hb1 _ _ (by rw [inside_iff]; omega),
          if_neg (by rintro ⟨v1, v2⟩; omega),
          if_pos ⟨-4, by decide, by omega, by omega⟩]
      · intro hin5
        rw [hb1 _ _ hin5, if_neg (by rintro ⟨v1, v2⟩; omega),
          if_neg (by
            rintro ⟨k, hk, v1, v2⟩
            simp at hk
            rcases hk with rfl | rfl | rfl | rfl | rfl | rfl | rfl | rfl <;> omega)]
        decide
    have hr4 : runLen (set2 b y x 1) (x + 1) (y + -1) (1) (-1) = 4 := by
      refine runLen_eq_four _ _ _ _ _
        (okcell _ _ _ ?_ ?_) (okcell _ _ _ ?_ ?_) (okcell _ _ _ ?_ ?_)
        (okcell _ _ _ ?_ ?_) (stopcell _ _ _ ?_)
      · rw [inside_iff]; omega
      · rw [hb1 _ _ (by rw [inside_iff]; omega),
          if_neg (by rintro ⟨v1, v2⟩; omega),
          if_pos ⟨1, by decide, by omega, by omega⟩]
      · rw [inside_iff]; omega
      · rw [hb1 _ _ (by rw [inside_iff]; omega),
          if_neg (by rintro ⟨v1, v2⟩; omega),
          if_pos ⟨2, by decide, by omega, by omega⟩]
      · rw [inside_iff]; omega
      · rw [hb1 _ _ (by rw [inside_iff]; omega),
          if_neg (by rintro ⟨v1, v2⟩; omega),
          if_pos ⟨3, by decide, by omega, by omega⟩]
      · rw [inside_iff]; omega
      · rw [hb1 _ _ (by rw [inside_iff]; omega),
          if_neg (by rintro ⟨v1, v2⟩; omega),
          if_pos ⟨4, by decide, by omega, by omega⟩]
      · intro hin5
        rw [hb1 _ _ hin5, if_neg (by rintro ⟨v1, v2⟩; omega),
          if_neg (by
            rintro ⟨k, hk, v1, v2⟩
            simp at hk
            rcases hk with rfl | rfl | rfl | rfl | rfl | rfl | rfl | rfl <;> omega)]
        decide
    have hstop : ∀ p q : Int,
        ((p = x ∧ q = y) → False) →
        ¬ runCell x y 1 (-1) p q →
        (inside p q && (get2 (set2 b y x 1) p q == 1)) = false := by
      intro p q hn1 hn2
      apply stopcell
      intro hinp
      rw [hb1 _ _ hinp, if_neg hn1, if_neg hn2]
      decide
    have hsk0l : runLen (set2 b y x 1) (x - 1) (y - 0) (-1) (-0) = 0 :=
      runLen_eq_zero _ _ _ _ _ (hstop _ _
        (by rintro ⟨v1, v2⟩; omega)
        (by rintro ⟨k, hk, v1, v2⟩; simp at hk
            rcases hk with rfl | rfl | rfl | rfl | rfl | rfl | rfl | rfl <;> omega))
    have hsk0r : runLen (set2 b y x 1) (x + 1) (y + 0) (1) (0) = 0 :=
      runLen_eq_zero _ _ _ _ _ (hstop _ _
        (by rintro ⟨v1, v2⟩; omega)
        (by rintro ⟨k, hk, v1, v2⟩; simp at hk
            rcases hk with rfl | rfl | rfl | rfl | rfl | rfl | rfl | rfl <;> omega))
    have hsk1l : runLen (set2 b y x 1) (x - 0) (y - 1) (-0) (-1) = 0 :=
      runLen_eq_zero _ _ _ _ _ (hstop _ _
        (by rintro ⟨v1, v2⟩; omega)
        (by rintro ⟨k, hk, v1, v2⟩; simp at hk
            rcases hk with rfl | rfl | rfl | rfl | rfl | rfl | rfl | rfl <;> omega))
    have hsk1r : runLen (set2 b y x 1) (x + 0) (y + 1) (0) (1) = 0 :=
      runLen_eq_zero _ _ _ _ _ (hstop _ _
        (by rintro ⟨v1, v2⟩; omega)
        (by rintro ⟨k, hk, v1, v2⟩; simp at hk
            rcases hk with rfl | rfl | rfl | rfl | rfl | rfl | rfl | rfl <;> omega))
    have hsk2l : runLen (set2 b y x 1) (x - 1) (y - 1) (-1) (-1) = 0 :=
      runLen_eq_zero _ _ _ _ _ (hstop _ _
        (by rintro ⟨v1, v2⟩; omega)
        (by rintro ⟨k, hk, v1, v2⟩; simp at hk
            rcases hk with rfl | rfl | rfl | rfl | rfl | rfl | rfl | rfl <;> omega))
    have hsk2r : runLen (set2 b y x 1) (x + 1) (y + 1) (1) (1) = 0 :=
      runLen_eq_zero _ _ _ _ _ (hstop _ _
        (by rintro ⟨v1, v2⟩; omega)
        (by rintro ⟨k, hk, v1, v2⟩; simp at hk
            rcases hk with rfl | rfl | rfl | rfl | rfl | rfl | rfl | rfl <;> omega))
    have hax3 : axisScan (set2 b y x 1) [] x y ((1 : Int), (-1 : Int)) 3 [] =
        [mkWindow x y 1 (-1) 4 0 3, mkWindow x y 1 (-1) 0 4 3] := by
      apply axisScan_four_four (set2 b y x 1) x y ((1 : Int), (-1 : Int)) 3 hl4 hr4
      simp only [sameKey, segKey, mkWindow, decide_eq_false_iff_not, Prod.mk.injEq]
      rintro ⟨v1, v2, v3, v4, v5⟩
      omega
    have hax0 := axisScan_skip (set2 b y x 1) [] x y ((1 : Int), (0 : Int)) 0
      [] hsk0l hsk0r
    have hax1 := axisScan_skip (set2 b y x 1) [] x y ((0 : Int), (1 : Int)) 1
      [] hsk1l hsk1r
    have hax2 := axisScan_skip (set2 b y x 1) [] x y ((1 : Int), (1 : Int)) 2
      [] hsk2l hsk2r
    have hsegs := linesCreated_segs_eq b x y [] hxy_in hget0
    have e : DIRS.enum = [(0, ((1 : Int), (0 : Int))), (1, (0, 1)), (2, (1, 1)), (3, (1, -1))] := rfl
    rw [e] at hsegs
    simp only [List.foldl_cons, List.foldl_nil] at hsegs
    rw [hax0, hax1, hax2, hax3] at hsegs
    exact ⟨hsegs.1, by rw [hsegs.2]; rfl⟩

/-- Witness for C2: the Scenario B board (runs (6,8)-(9,8) and (11,8)-(14,8))
evaluated at (10,8) with an empty ledger yields exactly the two horizontal
windows (6,8)-(10,8) and (10,8)-(14,8). -/
theorem C2_nine_run_two_windows_witness :
    (linesCreatedIfPlaced boardB 10 8 []).segs =
      [mkWindow 10 8 1 0 4 0 0, mkWindow 10 8 1 0 0 4 0] ∧
    (linesCreatedIfPlaced boardB 10 8 []).count = 2 :=
  C2_nine_run_two_windows boardB 10 8 1 0 0 (by decide) (by decide) (by decide)
    (by decide) (by decide)

end FiveDot
